import Mathlib

/-!
Shallow embedding of the COVID19_ABS agent-based simulator (ABClasses.py).

Randomness is made explicit: every call that draws from numpy's generators
takes the drawn values as oracle arguments.  Unbounded rejection-sampling
loops are embedded as `Nat.find` over a stream of proposals together with
the (probability-one) fact that some proposal is accepted.  The movement
step of `agent.update` (normal perturbations, KDE scoring over the
population) is abstracted by the committed new location `newLoc`: the code
guarantees only that the committed location is an accepted proposal, i.e.
strictly inside (0,1)^2, which `chooseLocation` below models.

Grid values and uniform draws compared against them live in `ℝ` because the
source computes `attenuation ** (d/2)` and `(1-rate) ** (1/infectionTime)`
(real powers); agent bookkeeping fields are `ℚ`/`ℤ`/`Bool` exactly as the
Python scalars behave.
-/

/-- Python's `int()` applied to a rational: truncation toward zero. -/
def pyInt (q : ℚ) : ℤ := if 0 ≤ q then ⌊q⌋ else ⌈q⌉

/-- Oracle randomness consumed by `agent.__init__`.  The `h` fields record
facts guaranteed by the numpy distributions drawn from: `np.random.rand`
lands in [0,1), `np.random.random(2).round(g)` lands in [0,1]^2, rejection
sampling of the normal age accepts with probability one, and
`np.random.gamma` is nonnegative. -/
structure agentRandomness where
  ageGroup : Fin 21
  subBucket : ℚ
  hSub : 0 ≤ subBucket ∧ subBucket < 1
  normalAges : ℕ → ℚ
  hNormal : ∃ n, 0 ≤ normalAges n ∧ normalAges n ≤ 104
  uniformLoc : ℚ × ℚ
  hUniformLoc : 0 ≤ uniformLoc.1 ∧ uniformLoc.1 ≤ 1 ∧ 0 ≤ uniformLoc.2 ∧ uniformLoc.2 ≤ 1
  biasedLoc : ℚ × ℚ
  pecDraw : Bool
  elderlyDraw : Bool
  asympDraw : ℚ
  hAsymp : 0 ≤ asympDraw

/-- The sampler `age_distribution(mean)`: for `mean ≤ 0`, a bucket draw from the 21
world-population buckets plus a uniform sub-bucket offset `4*rand()`; for
`mean > 0`, rejection sampling of `normal(mean,10)` until the sample lies in
[0,104], embedded as the first accepted element of the proposal stream. -/
def age_distribution (mean : ℚ) (r : agentRandomness) : ℚ :=
  if mean ≤ 0 then
    5 * (r.ageGroup : ℚ) + 4 * r.subBucket
  else
    r.normalAges (Nat.find r.hNormal)

/-- The agent state: the fields of the Python `agent` object. -/
structure agent where
  ageBias : ℚ
  cleanlinessBias : ℚ
  socialDistanceBias : ℚ
  travelerBias : ℚ
  travelerBiasO : ℚ
  locationGranularity : ℕ
  initialLocationBias : Option (ℚ × ℚ)
  age : ℚ
  location : ℚ × ℚ
  preexistingCondition : Bool
  infected : Bool
  symptomatic : Bool
  alive : Bool
  «protected» : Bool
  infectionTime : ℕ
  infectionTimer : ℤ
  asymptomaticTime : ℚ
  asymptomaticTimer : ℚ

/-- The constructor `agent.__init__`.  `pecDraw` and `elderlyDraw` are the outcomes of the
two Bernoulli trials `rand() < gamma(12, scale=4.5).cdf(age)`; the biased
initial location is the rounded normal draw `biasedLoc`, clamped to
[0,1]^2 componentwise exactly as the source list comprehension does. -/
def agent.init (ageBias cleanlinessBias socialDistanceBias travelerBias : ℚ)
    (locationGranularity : ℕ) (initialLocationBias : Option (ℚ × ℚ))
    (r : agentRandomness) : agent :=
  let age := age_distribution ageBias r
  let location : ℚ × ℚ :=
    match initialLocationBias with
    | some _ => (min (max r.biasedLoc.1 0) 1, min (max r.biasedLoc.2 0) 1)
    | none => r.uniformLoc
  let infectionTime : ℕ := if r.pecDraw || r.elderlyDraw then 7 * 4 else 7 * 2
  { ageBias := ageBias
    cleanlinessBias := cleanlinessBias
    socialDistanceBias := socialDistanceBias
    travelerBias := travelerBias
    travelerBiasO := travelerBias
    locationGranularity := locationGranularity
    initialLocationBias := initialLocationBias
    age := age
    location := location
    preexistingCondition := r.pecDraw
    infected := false
    symptomatic := false
    alive := true
    «protected» := false
    infectionTime := infectionTime
    infectionTimer := (infectionTime : ℤ)
    asymptomaticTime := r.asympDraw
    asymptomaticTimer := r.asympDraw }

/-- The environment state: the fields of the Python `environment` object.
The viral-load array `np.zeros((scale+1, scale+1))` is embedded as a total
function on `ℤ × ℤ`; only indices in `[0, scale]^2` are ever written. -/
structure environment where
  locationGranularity : ℕ
  attenuation : ℝ
  AOE : ℕ
  scale : ℕ
  viralMap : ℤ → ℤ → ℝ

/-- The constructor `environment.__init__`: `scale = 10 ** locationGranularity` and an
all-zero viral map. -/
def environment.init (locationGranularity : ℕ) (attenuation : ℝ) (AOE : ℕ) :
    environment :=
  { locationGranularity := locationGranularity
    attenuation := attenuation
    AOE := AOE
    scale := 10 ^ locationGranularity
    viralMap := fun _ _ => 0 }

/-- The acceptance predicate of the movement rejection loop: the rounded
candidate must lie strictly inside (0,1) in both coordinates
(`np.all(0 < newLocation) and np.all(newLocation < 1)`). -/
def acceptedLocation (l : ℚ × ℚ) : Prop :=
  0 < l.1 ∧ l.1 < 1 ∧ 0 < l.2 ∧ l.2 < 1

instance (l : ℚ × ℚ) : Decidable (acceptedLocation l) := by
  unfold acceptedLocation; infer_instance

/-- The movement rejection loop: keep drawing rounded normal perturbations
until one is accepted; the committed candidate is the first accepted
proposal of the stream.  (In the social-distancing branch ten such
candidates are drawn and one of them is selected by KDE scoring; every
candidate, hence the selected one, is produced by this loop.) -/
def chooseLocation (proposals : ℕ → ℚ × ℚ)
    (h : ∃ n, acceptedLocation (proposals n)) : ℚ × ℚ :=
  proposals (Nat.find h)

/-- The Python `deathFactor` local: a flat 10.5 % aggregate mortality for a
pre-existing condition, else 0. -/
def deathFactor (a : agent) : ℚ := if a.preexistingCondition then 105 / 1000 else 0

/-- The Python `ageFactor` chain of `if`/`elif` age-bucket mortality rates. -/
def ageFactor (age : ℚ) : ℚ :=
  if age ≤ 39 then 2 / 1000
  else if 40 ≤ age ∧ age ≤ 49 then 4 / 1000
  else if 50 ≤ age ∧ age ≤ 59 then 13 / 1000
  else if 60 ≤ age ∧ age ≤ 69 then 36 / 1000
  else if 70 ≤ age ∧ age ≤ 79 then 8 / 100
  else 148 / 1000

/-- The survival threshold `(1 - max(ageFactor, deathFactor)) ** (1/infectionTime)`
compared against the uniform draw in the death check (real power). -/
noncomputable def deathThreshold (a : agent) : ℝ :=
  ((1 : ℝ) - ((max (ageFactor a.age) (deathFactor a) : ℚ) : ℝ)) ^
    ((1 : ℝ) / (a.infectionTime : ℝ))

open scoped Classical in
/-- The method `agent.update(landscape, population)`.  `newLoc` is the location
committed by the movement step (see `chooseLocation`); `infDraw` and
`deathDraw` are the uniform draws of the infection-exposure check and of
the death check. -/
noncomputable def agent.update (a : agent) (landscape : environment)
    (newLoc : ℚ × ℚ) (infDraw deathDraw : ℝ) : agent :=
  if a.alive then
    let a1 : agent := { a with location := newLoc }
    if ¬a1.infected ∧ ¬a1.«protected» then
      let i : ℤ := pyInt (a1.location.1 * (landscape.scale : ℚ))
      let j : ℤ := pyInt (a1.location.2 * (landscape.scale : ℚ))
      if infDraw < landscape.viralMap i j then { a1 with infected := true } else a1
    else if a1.infected then
      if 0 < a1.asymptomaticTimer then
        { a1 with asymptomaticTimer := a1.asymptomaticTimer - 1 }
      else
        let a2 : agent := { a1 with travelerBias := 1 / 2,
                                    infectionTimer := a1.infectionTimer - 1 }
        if a2.infectionTimer = 0 then
          { a2 with infected := false
                    «protected» := true
                    infectionTimer := (a2.infectionTime : ℤ)
                    asymptomaticTimer := a2.asymptomaticTime
                    travelerBias := a2.travelerBiasO }
        else if deathDraw ≥ deathThreshold a2 then { a2 with alive := false }
        else a2
    else a1
  else a

/-- One tick's worth of oracle inputs to `agent.update`. -/
structure stepInput where
  landscape : environment
  newLoc : ℚ × ℚ
  infDraw : ℝ
  deathDraw : ℝ

/-- Iterated agent updates over a sequence of ticks. -/
noncomputable def agent.updates (a : agent) (steps : List stepInput) : agent :=
  steps.foldl (fun s t => s.update t.landscape t.newLoc t.infDraw t.deathDraw) a

/-- The index range `range(c - AOE, c + AOE + 1)` of the block surrounding a
coordinate `c`. -/
def blockRange (c : ℤ) (r : ℕ) : List ℤ :=
  (List.range (2 * r + 1)).map fun k : ℕ => c - (r : ℤ) + (k : ℤ)

/-- The cell list `itertools.product(range(i-AOE, i+AOE+1), range(j-AOE, j+AOE+1))`. -/
def blockCells (i j : ℤ) (r : ℕ) : List (ℤ × ℤ) :=
  (blockRange i r).flatMap fun ii => (blockRange j r).map fun jj => (ii, jj)

open scoped Classical in
/-- The body of the inner loop of `environment.update`: for one cell
`(ii, jj)` of the block around an agent standing at cell `(i, j)`, if the
cell is on the grid, deposit `infected * attenuation ** (d/2)` clamped above
at 1, then remove `cleanlinessBias * attenuation ** (d/2)` clamped below at
0, where `d` is the taxicab distance to the agent's cell. -/
noncomputable def cellVisit (scale : ℕ) (attenuation : ℝ) (infected : Bool)
    (cleanlinessBias : ℚ) (i j : ℤ) (M : ℤ → ℤ → ℝ) (c : ℤ × ℤ) :
    ℤ → ℤ → ℝ :=
  if 0 ≤ c.1 ∧ c.1 ≤ (scale : ℤ) ∧ 0 ≤ c.2 ∧ c.2 ≤ (scale : ℤ) then
    let d : ℕ := (c.1 - i).natAbs + (c.2 - j).natAbs
    let v1 : ℝ :=
      min (M c.1 c.2 + (if infected then (1 : ℝ) else 0) * attenuation ^ ((d : ℝ) / 2)) 1
    let v2 : ℝ := max (v1 - (cleanlinessBias : ℝ) * attenuation ^ ((d : ℝ) / 2)) 0
    fun x y => if x = c.1 ∧ y = c.2 then v2 else M x y
  else M

open scoped Classical in
/-- The body of the outer loop of `environment.update`: one agent's full
deposit/clean pass over the block surrounding its grid cell, skipped unless
the agent is alive and either infected or has nonzero cleaning
effectiveness. -/
noncomputable def agentVisit (e : environment) (M : ℤ → ℤ → ℝ) (p : agent) :
    ℤ → ℤ → ℝ :=
  if p.alive ∧ (p.infected ∨ p.cleanlinessBias ≠ 0) then
    let i : ℤ := pyInt (p.location.1 * (e.scale : ℚ))
    let j : ℤ := pyInt (p.location.2 * (e.scale : ℚ))
    (blockCells i j e.AOE).foldl
      (cellVisit e.scale e.attenuation p.infected p.cleanlinessBias i j) M
  else M

/-- The method `environment.update(population)`: fold every agent's deposit/clean pass
over the viral map, then multiply the whole map by the attenuation. -/
noncomputable def environment.update (e : environment) (population : List agent) :
    environment :=
  let M := population.foldl (agentVisit e) e.viralMap
  { e with viralMap := fun x y => M x y * e.attenuation }

/-! ### Concrete objects used in witnesses and counterexamples -/

/-- The environment of the spec's concrete scenario: `attenuation = 0.5`,
`AOE = 1`, default granularity 2, all-zero field. -/
noncomputable def E1 : environment := environment.init 2 (1 / 2) 1

/-- The single infected agent of the spec's concrete scenario: alive,
infected, `cleanlinessBias = 0`, standing at cell (0,0). -/
def p1 : agent :=
  { ageBias := -1, cleanlinessBias := 0, socialDistanceBias := 0, travelerBias := 1,
    travelerBiasO := 1, locationGranularity := 2, initialLocationBias := none,
    age := 20, location := (0, 0), preexistingCondition := false, infected := true,
    symptomatic := false, alive := true, «protected» := false, infectionTime := 14,
    infectionTimer := 14, asymptomaticTime := 5, asymptomaticTimer := 5 }

/-- A living symptomatic infected agent (asymptomatic timer has reached 0)
with original travel energy 2, age 20, no pre-existing condition, and 14
days of infection left. -/
def aSick : agent :=
  { ageBias := -1, cleanlinessBias := 0, socialDistanceBias := 0, travelerBias := 2,
    travelerBiasO := 2, locationGranularity := 2, initialLocationBias := none,
    age := 20, location := (1 / 2, 1 / 2), preexistingCondition := false, infected := true,
    symptomatic := false, alive := true, «protected» := false, infectionTime := 14,
    infectionTimer := 14, asymptomaticTime := 5, asymptomaticTimer := 0 }

/-- A dead agent. -/
def aDead : agent :=
  { aSick with alive := false, infected := false }

/-- A recovered, immune agent. -/
def aImmune : agent :=
  { aSick with infected := false, «protected» := true }

/-! ### Helper lemmas about single update steps -/

/-- A protected, uninfected, living agent only moves: no branch of `update`
touches any field but the location. -/
theorem update_of_protected (a : agent) (l : environment) (n : ℚ × ℚ) (iD dD : ℝ)
    (hp : a.«protected» = true) (hi : a.infected = false) :
    a.update l n iD dD = if a.alive then { a with location := n } else a := by
  unfold agent.update
  split_ifs <;> simp_all

/-- The asymptomatic timer stays above -1 and the sampled asymptomatic
duration is unchanged across one update. -/
theorem update_asymptomatic_bounds (a : agent) (l : environment) (n : ℚ × ℚ)
    (iD dD : ℝ) (h1 : -1 < a.asymptomaticTimer) (h2 : 0 ≤ a.asymptomaticTime) :
    -1 < (a.update l n iD dD).asymptomaticTimer ∧
      (a.update l n iD dD).asymptomaticTime = a.asymptomaticTime := by
  refine ⟨?_, ?_⟩ <;>
    · simp only [agent.update]
      split_ifs <;> simp_all <;> linarith

/-! ### Claim theorems -/

/-- C6: for every agent with `alive = false`, `agent.update` is a no-op —
position, infection and protection flags, both timers, and `travelerBias`
are all unchanged (the whole record is unchanged), for any environment and
oracle arguments. -/
theorem C6_dead_update_noop (a : agent) (l : environment) (n : ℚ × ℚ) (iD dD : ℝ)
    (h : a.alive = false) : a.update l n iD dD = a := by
  simp [agent.update, h]

theorem C6_witness : aDead.alive = false ∧ aDead.update E1 (1 / 2, 1 / 2) 0 0 = aDead :=
  ⟨rfl, C6_dead_update_noop aDead E1 (1 / 2, 1 / 2) 0 0 rfl⟩

/-- C7: for a living infected symptomatic agent whose infection timer is 1
at the start of `update` (the decrement brings it to exactly 0), the call
clears `infected`, sets `protected`, resets the infection timer to
`infectionTime` and the asymptomatic timer to `asymptomaticTime`, restores
`travelerBias` to its construction-time value `travelerBiasO`, and leaves
the agent alive (no death check that tick). -/
theorem C7_recovery (a : agent) (l : environment) (n : ℚ × ℚ) (iD dD : ℝ)
    (halive : a.alive = true) (hinf : a.infected = true)
    (hsym : ¬0 < a.asymptomaticTimer) (hone : a.infectionTimer = 1) :
    (a.update l n iD dD).infected = false ∧
    (a.update l n iD dD).«protected» = true ∧
    (a.update l n iD dD).infectionTimer = (a.infectionTime : ℤ) ∧
    (a.update l n iD dD).asymptomaticTimer = a.asymptomaticTime ∧
    (a.update l n iD dD).travelerBias = a.travelerBiasO ∧
    (a.update l n iD dD).alive = true := by
  simp [agent.update, halive, hinf, hsym, hone]

/-- A living symptomatic infected agent on its last infection day. -/
def aHealing : agent := { aSick with infectionTimer := 1 }

theorem C7_witness :
    (aHealing.alive = true ∧ aHealing.infected = true ∧
      ¬0 < aHealing.asymptomaticTimer ∧ aHealing.infectionTimer = 1) ∧
    (aHealing.update E1 (1 / 2, 1 / 2) 0 0).infected = false ∧
    (aHealing.update E1 (1 / 2, 1 / 2) 0 0).«protected» = true ∧
    (aHealing.update E1 (1 / 2, 1 / 2) 0 0).infectionTimer = (aHealing.infectionTime : ℤ) ∧
    (aHealing.update E1 (1 / 2, 1 / 2) 0 0).asymptomaticTimer = aHealing.asymptomaticTime ∧
    (aHealing.update E1 (1 / 2, 1 / 2) 0 0).travelerBias = aHealing.travelerBiasO ∧
    (aHealing.update E1 (1 / 2, 1 / 2) 0 0).alive = true :=
  ⟨⟨rfl, rfl, by decide, rfl⟩,
    C7_recovery aHealing E1 (1 / 2, 1 / 2) 0 0 rfl rfl (by decide) rfl⟩

/-- An environment whose every cell carries the maximal viral load 1. -/
noncomputable def Emax : environment := { E1 with viralMap := fun _ _ => 1 }

/-- C5: an agent with `protected = true` and `infected = false` is never
set to `infected` by any sequence of `agent.update` calls, whatever the
environments (even one with every cell at maximal load 1) and draws; the
agent moreover stays protected. -/
theorem C5_protected_never_reinfected (a : agent) (steps : List stepInput)
    (hp : a.«protected» = true) (hi : a.infected = false) :
    (a.updates steps).infected = false ∧ (a.updates steps).«protected» = true := by
  induction steps generalizing a with
  | nil => exact ⟨hi, hp⟩
  | cons t ts ih =>
      have h := update_of_protected a t.landscape t.newLoc t.infDraw t.deathDraw hp hi
      have hp' : (a.update t.landscape t.newLoc t.infDraw t.deathDraw).«protected» = true := by
        rw [h]; split_ifs <;> simpa
      have hi' : (a.update t.landscape t.newLoc t.infDraw t.deathDraw).infected = false := by
        rw [h]; split_ifs <;> simpa
      simpa only [agent.updates, List.foldl_cons] using
        ih (a.update t.landscape t.newLoc t.infDraw t.deathDraw) hp' hi'

theorem C5_witness :
    (aImmune.«protected» = true ∧ aImmune.infected = false) ∧
    (aImmune.updates [⟨Emax, (1 / 2, 1 / 2), 0, 0⟩, ⟨Emax, (1 / 2, 1 / 2), 0, 0⟩]).infected
        = false ∧
    (aImmune.updates [⟨Emax, (1 / 2, 1 / 2), 0, 0⟩, ⟨Emax, (1 / 2, 1 / 2), 0, 0⟩]).«protected»
        = true :=
  ⟨⟨rfl, rfl⟩,
    C5_protected_never_reinfected aImmune
      [⟨Emax, (1 / 2, 1 / 2), 0, 0⟩, ⟨Emax, (1 / 2, 1 / 2), 0, 0⟩] rfl rfl⟩

/-- Iterated form of `update_asymptomatic_bounds`: the asymptomatic timer
stays above -1 across any sequence of updates. -/
theorem updates_asymptomatic_bounds (a : agent) (steps : List stepInput)
    (h1 : -1 < a.asymptomaticTimer) (h2 : 0 ≤ a.asymptomaticTime) :
    -1 < (a.updates steps).asymptomaticTimer ∧
      (a.updates steps).asymptomaticTime = a.asymptomaticTime := by
  induction steps generalizing a with
  | nil => exact ⟨h1, rfl⟩
  | cons t ts ih =>
      obtain ⟨g1, g2⟩ :=
        update_asymptomatic_bounds a t.landscape t.newLoc t.infDraw t.deathDraw h1 h2
      have := ih (a.update t.landscape t.newLoc t.infDraw t.deathDraw) g1 (g2 ▸ h2)
      simpa only [agent.updates, List.foldl_cons, g2] using this

/-- C10: the asymptomatic timer is decremented only while strictly
positive, hence (i) a freshly constructed agent has timer and sampled
duration equal to the nonnegative gamma draw, (ii) any sequence of updates
keeps the timer strictly above -1, (iii) one update changes a strictly
positive timer only to itself or its predecessor, and (iv) once the timer
is ≤ 0 it is unchanged by every update except the recovery tick
(alive, infected, infection timer 1), which resets it to the sampled
`asymptomaticTime`. -/
theorem C10_asymptomatic_timer (a : agent) (steps : List stepInput)
    (l : environment) (n : ℚ × ℚ) (iD dD : ℝ) :
    (∀ (ab cb sb tb : ℚ) (g : ℕ) (ib : Option (ℚ × ℚ)) (r : agentRandomness),
      (agent.init ab cb sb tb g ib r).asymptomaticTimer = r.asympDraw ∧
      (agent.init ab cb sb tb g ib r).asymptomaticTime = r.asympDraw ∧
      -1 < (agent.init ab cb sb tb g ib r).asymptomaticTimer) ∧
    (-1 < a.asymptomaticTimer → 0 ≤ a.asymptomaticTime →
      -1 < (a.updates steps).asymptomaticTimer) ∧
    (0 < a.asymptomaticTimer →
      (a.update l n iD dD).asymptomaticTimer = a.asymptomaticTimer - 1 ∨
      (a.update l n iD dD).asymptomaticTimer = a.asymptomaticTimer) ∧
    (a.asymptomaticTimer ≤ 0 →
      ¬(a.alive = true ∧ a.infected = true ∧ a.infectionTimer = 1) →
      (a.update l n iD dD).asymptomaticTimer = a.asymptomaticTimer) ∧
    (a.asymptomaticTimer ≤ 0 → a.alive = true → a.infected = true →
      a.infectionTimer = 1 →
      (a.update l n iD dD).asymptomaticTimer = a.asymptomaticTime) := by
  refine ⟨?_, ?_, ?_, ?_, ?_⟩
  · intro ab cb sb tb g ib r
    refine ⟨rfl, rfl, ?_⟩
    have := r.hAsymp
    show (-1 : ℚ) < r.asympDraw
    linarith
  · intro h1 h2
    exact (updates_asymptomatic_bounds a steps h1 h2).1
  · intro h
    simp only [agent.update]
    split_ifs <;> simp_all
  · intro h hne
    simp only [agent.update]
    split_ifs <;>
      first
        | rfl
        | (exfalso; linarith)
        | (exfalso; exact hne ⟨by assumption, by assumption, by omega⟩)
  · intro h h1 h2 h3
    simp only [agent.update]
    split_ifs <;>
      first
        | rfl
        | (exfalso; linarith)
        | (exfalso; omega)
        | (exfalso; simp_all)

theorem C10_witness :
    (aSick.asymptomaticTimer ≤ 0 ∧
      (aSick.update E1 (1 / 2, 1 / 2) 0 0).asymptomaticTimer = aSick.asymptomaticTimer) ∧
    -1 < (aSick.updates []).asymptomaticTimer :=
  ⟨⟨by norm_num [aSick],
    (C10_asymptomatic_timer aSick [] E1 (1 / 2, 1 / 2) 0 0).2.2.2.1 (by norm_num [aSick])
      (by norm_num [aSick])⟩,
    (C10_asymptomatic_timer aSick [] E1 (1 / 2, 1 / 2) 0 0).2.1 (by norm_num [aSick])
      (by norm_num [aSick])⟩

/-- C2: for a living symptomatic infected agent whose infection timer does
not reach 0 this tick, the death branch triggers exactly when the uniform
draw is at least `(1 - max_rate) ** (1/infectionTime)`, where `max_rate`
is the maximum of the flat pre-existing-condition rate (0.105 or 0) and
the age-bucket rate; the buckets are 0.002 for age ≤ 39, 0.004 on
[40,49], 0.013 on [50,59], 0.036 on [60,69], 0.08 on [70,79], and 0.148
for age ≥ 80. -/
theorem C2_death_check (a : agent) (l : environment) (n : ℚ × ℚ) (iD dD : ℝ)
    (halive : a.alive = true) (hinf : a.infected = true)
    (hsym : ¬0 < a.asymptomaticTimer) (hnot : a.infectionTimer - 1 ≠ 0) :
    ((a.update l n iD dD).alive = false ↔
      dD ≥ ((1 : ℝ) - ((max (ageFactor a.age) (deathFactor a) : ℚ) : ℝ)) ^
        ((1 : ℝ) / (a.infectionTime : ℝ))) ∧
    (a.age ≤ 39 → ageFactor a.age = 2 / 1000) ∧
    (40 ≤ a.age ∧ a.age ≤ 49 → ageFactor a.age = 4 / 1000) ∧
    (50 ≤ a.age ∧ a.age ≤ 59 → ageFactor a.age = 13 / 1000) ∧
    (60 ≤ a.age ∧ a.age ≤ 69 → ageFactor a.age = 36 / 1000) ∧
    (70 ≤ a.age ∧ a.age ≤ 79 → ageFactor a.age = 8 / 100) ∧
    (80 ≤ a.age → ageFactor a.age = 148 / 1000) ∧
    (deathFactor a = if a.preexistingCondition = true then 105 / 1000 else 0) := by
  refine ⟨?_, ?_, ?_, ?_, ?_, ?_, ?_, ?_⟩
  · unfold agent.update
    simp only [halive, hinf, hsym, hnot, if_true, if_false, ite_true, ite_false]
    split_ifs with h1 h2 h3 <;> simp_all [deathThreshold, deathFactor]
  · intro h; simp [ageFactor, h]
  · rintro ⟨h1, h2⟩
    unfold ageFactor
    rw [if_neg (by linarith), if_pos ⟨h1, h2⟩]
  · rintro ⟨h1, h2⟩
    unfold ageFactor
    rw [if_neg (by linarith), if_neg (fun hc => by linarith [hc.2]), if_pos ⟨h1, h2⟩]
  · rintro ⟨h1, h2⟩
    unfold ageFactor
    rw [if_neg (by linarith), if_neg (fun hc => by linarith [hc.2]),
      if_neg (fun hc => by linarith [hc.2]), if_pos ⟨h1, h2⟩]
  · rintro ⟨h1, h2⟩
    unfold ageFactor
    rw [if_neg (by linarith), if_neg (fun hc => by linarith [hc.2]),
      if_neg (fun hc => by linarith [hc.2]), if_neg (fun hc => by linarith [hc.2]),
      if_pos ⟨h1, h2⟩]
  · intro h1
    unfold ageFactor
    rw [if_neg (by linarith), if_neg (fun hc => by linarith [hc.2]),
      if_neg (fun hc => by linarith [hc.2]), if_neg (fun hc => by linarith [hc.2]),
      if_neg (fun hc => by linarith [hc.2])]
  · rfl

theorem C2_witness :
    (aSick.alive = true ∧ aSick.infected = true ∧ ¬0 < aSick.asymptomaticTimer ∧
      aSick.infectionTimer - 1 ≠ 0) ∧
    ((aSick.update E1 (1 / 2, 1 / 2) 0 1).alive = false ↔
      (1 : ℝ) ≥ ((1 : ℝ) - ((max (ageFactor aSick.age) (deathFactor aSick) : ℚ) : ℝ)) ^
        ((1 : ℝ) / (aSick.infectionTime : ℝ))) ∧
    (aSick.age ≤ 39 → ageFactor aSick.age = 2 / 1000) :=
  ⟨⟨rfl, rfl, by norm_num [aSick], by decide⟩,
    (C2_death_check aSick E1 (1 / 2, 1 / 2) 0 1 rfl rfl (by norm_num [aSick])
      (by decide)).1,
    (C2_death_check aSick E1 (1 / 2, 1 / 2) 0 1 rfl rfl (by norm_num [aSick])
      (by decide)).2.1⟩

/-- C3 counterexample: `aSick` has original travel energy
`travelerBiasO = 2`, so half of the original value is 1; yet after an
update in the symptomatic phase its `travelerBias` is the constant 1/2. -/
theorem C3_counterexample :
    (aSick.update E1 (1 / 2, 1 / 2) 0 0).travelerBias = 1 / 2 ∧
    aSick.travelerBiasO / 2 = 1 ∧ (1 / 2 : ℚ) ≠ 1 := by
  refine ⟨?_, by norm_num [aSick], by norm_num⟩
  simp only [agent.update]
  split_ifs <;> simp_all [aSick]

/-- C3 amended: for a living infected agent in the symptomatic phase,
`agent.update` overrides `travelerBias` to the constant 0.5 — the halved
default travel energy, not half the agent's own original value — on every
non-recovery tick (whether or not the death check fires); the override
persists because no other branch writes the field (asymptomatic, dead, and
uninfected agents keep their `travelerBias`) until recovery restores the
original `travelerBiasO`. -/
theorem C3_travelerBias_override (a : agent) (l : environment) (n : ℚ × ℚ)
    (iD dD : ℝ) :
    (a.alive = true → a.infected = true → ¬0 < a.asymptomaticTimer →
      a.infectionTimer ≠ 1 → (a.update l n iD dD).travelerBias = 1 / 2) ∧
    (a.alive = true → a.infected = true → ¬0 < a.asymptomaticTimer →
      a.infectionTimer = 1 → (a.update l n iD dD).travelerBias = a.travelerBiasO) ∧
    (a.infected = false ∨ 0 < a.asymptomaticTimer ∨ a.alive = false →
      (a.update l n iD dD).travelerBias = a.travelerBias) := by
  refine ⟨?_, ?_, ?_⟩
  · intro h1 h2 h3 h4
    simp only [agent.update]
    split_ifs <;> first | rfl | (exfalso; omega) | (exfalso; simp_all; done)
  · intro h1 h2 h3 h4
    simp only [agent.update]
    split_ifs <;> first | rfl | (exfalso; omega) | (exfalso; simp_all; done)
  · intro h
    simp only [agent.update]
    rcases h with h | h | h <;>
      split_ifs <;> first | rfl | (exfalso; linarith) | (exfalso; simp_all; done)

theorem C3_witness :
    (aSick.alive = true ∧ aSick.infected = true ∧ ¬0 < aSick.asymptomaticTimer ∧
      aSick.infectionTimer ≠ 1) ∧
    (aSick.update E1 (1 / 2, 1 / 2) 0 1).travelerBias = 1 / 2 :=
  ⟨⟨rfl, rfl, by norm_num [aSick], by decide⟩,
    (C3_travelerBias_override aSick E1 (1 / 2, 1 / 2) 0 1).1 rfl rfl
      (by norm_num [aSick]) (by decide)⟩

/-- C9 counterexample: updating a living infected agent whose asymptomatic
timer has reached 0 leaves the agent infected with timer ≤ 0, so the
derived predicate (infected and asymptomatic timer ≤ 0) holds, yet the
readable `symptomatic` attribute still reads false. -/
theorem C9_counterexample :
    (aSick.update E1 (1 / 2, 1 / 2) 0 0).symptomatic = false ∧
    (aSick.update E1 (1 / 2, 1 / 2) 0 0).infected = true ∧
    (aSick.update E1 (1 / 2, 1 / 2) 0 0).asymptomaticTimer ≤ 0 := by
  refine ⟨?_, ?_, ?_⟩ <;>
    · simp only [agent.update]
      split_ifs <;> simp_all [aSick]

/-- C9 amended: the `symptomatic` attribute is set to false at construction
and never modified by `agent.update`; it does not track the derived
predicate (infected and asymptomatic timer ≤ 0) — an infected agent whose
asymptomatic timer has counted down to ≤ 0 still reads
`symptomatic = false`, so the symptomatic phase must be derived from
`infected` and `asymptomaticTimer` rather than read from the attribute. -/
theorem C9_symptomatic_attribute_constant :
    (∀ (ab cb sb tb : ℚ) (g : ℕ) (ib : Option (ℚ × ℚ)) (r : agentRandomness),
      (agent.init ab cb sb tb g ib r).symptomatic = false) ∧
    (∀ (a : agent) (l : environment) (n : ℚ × ℚ) (iD dD : ℝ),
      (a.update l n iD dD).symptomatic = a.symptomatic) := by
  refine ⟨fun _ _ _ _ _ _ _ => rfl, fun a l n iD dD => ?_⟩
  simp only [agent.update]
  split_ifs <;> rfl

/-! ### Environment helper lemmas -/

/-- Pointwise characterization of one inner-loop step of
`environment.update`. -/
theorem cellVisit_apply (sc : ℕ) (att : ℝ) (inf : Bool) (cl : ℚ) (i j : ℤ)
    (M : ℤ → ℤ → ℝ) (c : ℤ × ℤ) (x y : ℤ) :
    cellVisit sc att inf cl i j M c x y =
      if (0 ≤ c.1 ∧ c.1 ≤ (sc : ℤ) ∧ 0 ≤ c.2 ∧ c.2 ≤ (sc : ℤ)) ∧ x = c.1 ∧ y = c.2 then
        max (min (M c.1 c.2 + (if inf then (1 : ℝ) else 0) *
              att ^ ((((c.1 - i).natAbs + (c.2 - j).natAbs : ℕ) : ℝ) / 2)) 1 -
            (cl : ℝ) * att ^ ((((c.1 - i).natAbs + (c.2 - j).natAbs : ℕ) : ℝ) / 2)) 0
      else M x y := by
  unfold cellVisit
  split_ifs <;> simp_all

/-- One inner-loop step keeps every cell of the map in [0,1]. -/
theorem cellVisit_bounds (sc : ℕ) (att : ℝ) (inf : Bool) (cl : ℚ) (i j : ℤ)
    (M : ℤ → ℤ → ℝ) (c : ℤ × ℤ) (hatt : 0 ≤ att) (hcl : 0 ≤ cl)
    (hM : ∀ x y, 0 ≤ M x y ∧ M x y ≤ 1) :
    ∀ x y, 0 ≤ cellVisit sc att inf cl i j M c x y ∧
      cellVisit sc att inf cl i j M c x y ≤ 1 := by
  intro x y
  rw [cellVisit_apply]
  by_cases h : (0 ≤ c.1 ∧ c.1 ≤ (sc : ℤ) ∧ 0 ≤ c.2 ∧ c.2 ≤ (sc : ℤ)) ∧ x = c.1 ∧ y = c.2
  · rw [if_pos h]
    have hs : (0 : ℝ) ≤ att ^ ((((c.1 - i).natAbs + (c.2 - j).natAbs : ℕ) : ℝ) / 2) :=
      Real.rpow_nonneg hatt _
    have hcs : (0 : ℝ) ≤ (cl : ℝ) *
        att ^ ((((c.1 - i).natAbs + (c.2 - j).natAbs : ℕ) : ℝ) / 2) :=
      mul_nonneg (by exact_mod_cast hcl) hs
    have hmin : min (M c.1 c.2 + (if inf then (1 : ℝ) else 0) *
        att ^ ((((c.1 - i).natAbs + (c.2 - j).natAbs : ℕ) : ℝ) / 2)) 1 ≤ 1 :=
      min_le_right _ _
    exact ⟨le_max_right _ _, max_le (by linarith) zero_le_one⟩
  · rw [if_neg h]
    exact hM x y

/-- The full inner loop keeps every cell of the map in [0,1]. -/
theorem foldl_cellVisit_bounds (sc : ℕ) (att : ℝ) (inf : Bool) (cl : ℚ) (i j : ℤ)
    (cells : List (ℤ × ℤ)) (M : ℤ → ℤ → ℝ) (hatt : 0 ≤ att) (hcl : 0 ≤ cl)
    (hM : ∀ x y, 0 ≤ M x y ∧ M x y ≤ 1) :
    ∀ x y, 0 ≤ (cells.foldl (cellVisit sc att inf cl i j) M) x y ∧
      (cells.foldl (cellVisit sc att inf cl i j) M) x y ≤ 1 := by
  induction cells generalizing M with
  | nil => exact hM
  | cons c cs ih =>
      exact fun x y => ih _ (cellVisit_bounds sc att inf cl i j M c hatt hcl hM) x y

/-- One agent's deposit/clean pass keeps every cell of the map in [0,1]. -/
theorem agentVisit_bounds (e : environment) (M : ℤ → ℤ → ℝ) (p : agent)
    (hatt : 0 ≤ e.attenuation) (hcl : 0 ≤ p.cleanlinessBias)
    (hM : ∀ x y, 0 ≤ M x y ∧ M x y ≤ 1) :
    ∀ x y, 0 ≤ agentVisit e M p x y ∧ agentVisit e M p x y ≤ 1 := by
  unfold agentVisit
  split_ifs with hc
  · exact foldl_cellVisit_bounds _ _ _ _ _ _ _ M hatt hcl hM
  · exact hM

/-- Folding the whole population keeps every cell of the map in [0,1]. -/
theorem foldl_agentVisit_bounds (e : environment) (pop : List agent)
    (hatt : 0 ≤ e.attenuation) :
    ∀ M : ℤ → ℤ → ℝ, (∀ p ∈ pop, 0 ≤ p.cleanlinessBias) →
      (∀ x y, 0 ≤ M x y ∧ M x y ≤ 1) →
      ∀ x y, 0 ≤ (pop.foldl (agentVisit e) M) x y ∧ (pop.foldl (agentVisit e) M) x y ≤ 1 := by
  induction pop with
  | nil => exact fun M _ hM => hM
  | cons p ps ih =>
      intro M hcl hM
      exact ih _ (fun q hq => hcl q (List.mem_cons_of_mem p hq))
        (agentVisit_bounds e M p hatt (hcl p (List.mem_cons_self p ps)) hM)

/-- A single `environment.update` keeps every cell in [0,1] when the
attenuation lies in (0,1), every agent's cleaning effectiveness is
nonnegative (its documented domain is [0,1]), and the incoming field lies
in [0,1]. -/
theorem update_viralMap_bounds (e : environment) (pop : List agent)
    (h0 : 0 < e.attenuation) (h1 : e.attenuation < 1)
    (hcl : ∀ p ∈ pop, 0 ≤ p.cleanlinessBias)
    (hM : ∀ x y, 0 ≤ e.viralMap x y ∧ e.viralMap x y ≤ 1) :
    ∀ x y, 0 ≤ (e.update pop).viralMap x y ∧ (e.update pop).viralMap x y ≤ 1 := by
  intro x y
  have h := foldl_agentVisit_bounds e pop (le_of_lt h0) e.viralMap hcl hM x y
  unfold environment.update
  constructor
  · exact mul_nonneg h.1 (le_of_lt h0)
  · exact mul_le_one₀ h.2 (le_of_lt h0) (le_of_lt h1)

/-- A whole run of environment updates (one population per tick) keeps
every cell in [0,1], starting from any field already in [0,1]. -/
theorem run_viralMap_bounds (pops : List (List agent)) :
    ∀ e : environment, 0 < e.attenuation → e.attenuation < 1 →
      (∀ P ∈ pops, ∀ p ∈ P, 0 ≤ p.cleanlinessBias) →
      (∀ x y, 0 ≤ e.viralMap x y ∧ e.viralMap x y ≤ 1) →
      ∀ x y, 0 ≤ (pops.foldl (fun s P => s.update P) e).viralMap x y ∧
        (pops.foldl (fun s P => s.update P) e).viralMap x y ≤ 1 := by
  induction pops with
  | nil => exact fun e _ _ _ hM => hM
  | cons P Ps ih =>
      intro e h0 h1 hcl hM
      exact ih (e.update P) h0 h1
        (fun Q hQ => hcl Q (List.mem_cons_of_mem P hQ))
        (update_viralMap_bounds e P h0 h1 (hcl P (List.mem_cons_self P Ps)) hM)

/-- C4: with attenuation in (0,1), nonnegative cleaning effectiveness (its
documented domain is [0,1]) and a field whose cells lie in [0,1],
`environment.update` returns a field whose cells all lie in [0,1]; the
freshly constructed environment is all-zero, so the invariant holds after
every update of every run. -/
theorem C4_viralMap_clamp_invariant :
    (∀ (e : environment) (pop : List agent),
      0 < e.attenuation → e.attenuation < 1 →
      (∀ p ∈ pop, 0 ≤ p.cleanlinessBias) →
      (∀ x y, 0 ≤ e.viralMap x y ∧ e.viralMap x y ≤ 1) →
      ∀ x y, 0 ≤ (e.update pop).viralMap x y ∧ (e.update pop).viralMap x y ≤ 1) ∧
    (∀ (g : ℕ) (att : ℝ) (aoe : ℕ) (x y : ℤ),
      (environment.init g att aoe).viralMap x y = 0) ∧
    (∀ (g : ℕ) (att : ℝ) (aoe : ℕ) (pops : List (List agent)),
      0 < att → att < 1 →
      (∀ P ∈ pops, ∀ p ∈ P, 0 ≤ p.cleanlinessBias) →
      ∀ x y,
        0 ≤ (pops.foldl (fun s P => s.update P) (environment.init g att aoe)).viralMap x y ∧
        (pops.foldl (fun s P => s.update P) (environment.init g att aoe)).viralMap x y ≤ 1) := by
  refine ⟨update_viralMap_bounds, fun _ _ _ _ _ => rfl, ?_⟩
  intro g att aoe pops h0 h1 hcl
  exact run_viralMap_bounds pops (environment.init g att aoe) h0 h1 hcl
    (fun x y => by constructor <;> simp [environment.init])

theorem C4_witness :
    ((0 : ℝ) < Emax.attenuation ∧ Emax.attenuation < 1 ∧
      (∀ x y, 0 ≤ Emax.viralMap x y ∧ Emax.viralMap x y ≤ 1)) ∧
    (0 ≤ (Emax.update [aImmune]).viralMap 0 0 ∧ (Emax.update [aImmune]).viralMap 0 0 ≤ 1) :=
  ⟨⟨by norm_num [Emax, E1, environment.init],
    by norm_num [Emax, E1, environment.init],
    fun x y => by norm_num [Emax, E1, environment.init]⟩,
    C4_viralMap_clamp_invariant.1 Emax [aImmune]
      (by norm_num [Emax, E1, environment.init])
      (by norm_num [Emax, E1, environment.init])
      (by intro p hp; simp only [List.mem_singleton] at hp; subst hp; norm_num [aImmune, aSick])
      (fun x y => by norm_num [Emax, E1, environment.init]) 0 0⟩

/-- Membership bounds for the block index range. -/
theorem mem_blockRange {z c : ℤ} {r : ℕ} (h : z ∈ blockRange c r) :
    c - (r : ℤ) ≤ z ∧ z ≤ c + (r : ℤ) := by
  unfold blockRange at h
  obtain ⟨k, hk, rfl⟩ := List.mem_map.mp h
  have hk2 : k < 2 * r + 1 := List.mem_range.mp hk
  omega

/-- A cell visited by the inner loop lies in the square (Chebyshev) block
of radius `r` around the agent's cell. -/
theorem mem_blockCells {c : ℤ × ℤ} {i j : ℤ} {r : ℕ} (h : c ∈ blockCells i j r) :
    i - (r : ℤ) ≤ c.1 ∧ c.1 ≤ i + (r : ℤ) ∧ j - (r : ℤ) ≤ c.2 ∧ c.2 ≤ j + (r : ℤ) := by
  unfold blockCells at h
  simp only [List.mem_flatMap, List.mem_map] at h
  obtain ⟨ii, hii, jj, hjj, rfl⟩ := h
  obtain ⟨h1, h2⟩ := mem_blockRange hii
  obtain ⟨h3, h4⟩ := mem_blockRange hjj
  exact ⟨h1, h2, h3, h4⟩

/-- One inner-loop step leaves every cell other than the visited one
unchanged. -/
theorem cellVisit_apply_ne (sc : ℕ) (att : ℝ) (inf : Bool) (cl : ℚ) (i j : ℤ)
    (M : ℤ → ℤ → ℝ) (c : ℤ × ℤ) (x y : ℤ) (h : ¬(x = c.1 ∧ y = c.2)) :
    cellVisit sc att inf cl i j M c x y = M x y := by
  rw [cellVisit_apply, if_neg (fun hc => h hc.2)]

/-- The inner loop leaves cells it never visits unchanged. -/
theorem foldl_cellVisit_apply_ne (sc : ℕ) (att : ℝ) (inf : Bool) (cl : ℚ) (i j : ℤ)
    (cells : List (ℤ × ℤ)) (x y : ℤ) :
    ∀ M : ℤ → ℤ → ℝ, (∀ c ∈ cells, ¬(x = c.1 ∧ y = c.2)) →
      (cells.foldl (cellVisit sc att inf cl i j) M) x y = M x y := by
  induction cells with
  | nil => exact fun M _ => rfl
  | cons c cs ih =>
      intro M h
      rw [List.foldl_cons, ih _ (fun d hd => h d (List.mem_cons_of_mem c hd)),
        cellVisit_apply_ne sc att inf cl i j M c x y (h c (List.mem_cons_self c cs))]

/-- An agent's pass leaves every cell at Chebyshev distance greater than
`AOE` from the agent's grid cell unchanged (and a non-contributing agent
leaves the whole map unchanged). -/
theorem agentVisit_apply_far (e : environment) (M : ℤ → ℤ → ℝ) (p : agent) (x y : ℤ)
    (h : p.alive = true → (p.infected = true ∨ p.cleanlinessBias ≠ 0) →
      (e.AOE : ℤ) < max |x - pyInt (p.location.1 * (e.scale : ℚ))|
        |y - pyInt (p.location.2 * (e.scale : ℚ))|) :
    agentVisit e M p x y = M x y := by
  unfold agentVisit
  split_ifs with hc
  · apply foldl_cellVisit_apply_ne
    rintro c hcmem ⟨rfl, rfl⟩
    obtain ⟨h1, h2, h3, h4⟩ := mem_blockCells hcmem
    have hfar := h hc.1 hc.2
    have hx : |c.1 - pyInt (p.location.1 * (e.scale : ℚ))| ≤ (e.AOE : ℤ) :=
      abs_le.mpr ⟨by omega, by omega⟩
    have hy : |c.2 - pyInt (p.location.2 * (e.scale : ℚ))| ≤ (e.AOE : ℤ) :=
      abs_le.mpr ⟨by omega, by omega⟩
    have := max_le hx hy
    omega
  · rfl

/-- `environment.update` multiplies by the attenuation, and nothing more,
every cell at Chebyshev distance greater than `AOE` from every contributing
agent's grid cell. -/
theorem update_apply_far (e : environment) (pop : List agent) (x y : ℤ)
    (h : ∀ p ∈ pop, p.alive = true → (p.infected = true ∨ p.cleanlinessBias ≠ 0) →
      (e.AOE : ℤ) < max |x - pyInt (p.location.1 * (e.scale : ℚ))|
        |y - pyInt (p.location.2 * (e.scale : ℚ))|) :
    (e.update pop).viralMap x y = e.viralMap x y * e.attenuation := by
  unfold environment.update
  have key : ∀ (ps : List agent) (M : ℤ → ℤ → ℝ),
      (∀ p ∈ ps, p.alive = true → (p.infected = true ∨ p.cleanlinessBias ≠ 0) →
        (e.AOE : ℤ) < max |x - pyInt (p.location.1 * (e.scale : ℚ))|
          |y - pyInt (p.location.2 * (e.scale : ℚ))|) →
      (ps.foldl (agentVisit e) M) x y = M x y := by
    intro ps
    induction ps with
    | nil => exact fun M _ => rfl
    | cons p ps ih =>
        intro M hfar
        rw [List.foldl_cons, ih _ (fun q hq => hfar q (List.mem_cons_of_mem p hq)),
          agentVisit_apply_far e M p x y (hfar p (List.mem_cons_self p ps))]
  exact congrArg (· * e.attenuation) (key pop e.viralMap h)

/-- C1 counterexample: in the spec's scenario (attenuation 0.5, AOE 1, one
infected agent at cell (0,0) over a zero field), cell (1,1) has taxicab
distance 2 from the agent, yet one `environment.update` leaves it at
`0.5^(2/2) * 0.5 = 0.25`, not 0: the loop visits the full square block
`range(i-AOE, i+AOE+1) x range(j-AOE, j+AOE+1)`, not the taxicab disc. -/
theorem C1_counterexample : (E1.update [p1]).viralMap 1 1 ≠ 0 := by
  have hval : (E1.update [p1]).viralMap 1 1 = 1 / 4 := by
    simp only [environment.update, agentVisit, E1, environment.init, p1, pyInt,
      blockCells, blockRange, List.range_succ, List.range_zero, List.map, List.flatMap,
      List.foldl, cellVisit]
    norm_num [Real.rpow_natCast]
  rw [hval]
  norm_num

set_option maxHeartbeats 1600000 in
/-- C1 amended: aside from the end-of-update attenuation of every cell,
`environment.update` modifies only in-bounds cells within Chebyshev
distance (not taxicab distance) at most `AOE` of a contributing agent's
cell — the full `(2*AOE+1)^2` square block — while the deposit magnitude
still decays with the taxicab distance `d` as `attenuation^(d/2)`.  In the
spec's scenario, cell (0,0) ends at 0.5, cells (1,0) and (0,1) end at
`0.5^0.5 * 0.5`, and cell (1,1) (taxicab distance 2 but Chebyshev distance
1) ends at `0.5^1 * 0.5 = 0.25` rather than staying 0. -/
theorem C1_update_block_footprint :
    ((E1.update [p1]).viralMap 0 0 = 1 / 2 ∧
     (E1.update [p1]).viralMap 1 0 = (1 / 2 : ℝ) ^ ((1 : ℝ) / 2) * (1 / 2) ∧
     (E1.update [p1]).viralMap 0 1 = (1 / 2 : ℝ) ^ ((1 : ℝ) / 2) * (1 / 2) ∧
     (E1.update [p1]).viralMap 1 1 = 1 / 4) ∧
    (∀ (e : environment) (pop : List agent) (x y : ℤ),
      (∀ p ∈ pop, p.alive = true → (p.infected = true ∨ p.cleanlinessBias ≠ 0) →
        (e.AOE : ℤ) < max |x - pyInt (p.location.1 * (e.scale : ℚ))|
          |y - pyInt (p.location.2 * (e.scale : ℚ))|) →
      (e.update pop).viralMap x y = e.viralMap x y * e.attenuation) := by
  have hle : ((1 / 2 : ℝ) ^ ((1 : ℝ) / 2)) ≤ 1 :=
    Real.rpow_le_one (by norm_num) (by norm_num) (by norm_num)
  have h0 : (0 : ℝ) ≤ (1 / 2 : ℝ) ^ ((1 : ℝ) / 2) := Real.rpow_nonneg (by norm_num) _
  refine ⟨⟨?_, ?_, ?_, ?_⟩, update_apply_far⟩
  · simp only [environment.update, agentVisit, E1, environment.init, p1, pyInt,
      blockCells, blockRange, List.range_succ, List.range_zero, List.map, List.flatMap,
      List.foldl, cellVisit]
    norm_num [Real.rpow_natCast]
  · simp only [environment.update, agentVisit, E1, environment.init, p1, pyInt,
      blockCells, blockRange, List.range_succ, List.range_zero, List.map, List.flatMap,
      List.foldl, cellVisit]
    norm_num [Real.rpow_natCast]
    rw [min_eq_left hle]
    exact max_eq_left h0
  · simp only [environment.update, agentVisit, E1, environment.init, p1, pyInt,
      blockCells, blockRange, List.range_succ, List.range_zero, List.map, List.flatMap,
      List.foldl, cellVisit]
    norm_num [Real.rpow_natCast]
    rw [min_eq_left hle]
    exact max_eq_left h0
  · simp only [environment.update, agentVisit, E1, environment.init, p1, pyInt,
      blockCells, blockRange, List.range_succ, List.range_zero, List.map, List.flatMap,
      List.foldl, cellVisit]
    norm_num [Real.rpow_natCast]

theorem C1_witness :
    (∀ p ∈ [p1], p.alive = true → (p.infected = true ∨ p.cleanlinessBias ≠ 0) →
      (E1.AOE : ℤ) < max |(3 : ℤ) - pyInt (p.location.1 * (E1.scale : ℚ))|
        |(0 : ℤ) - pyInt (p.location.2 * (E1.scale : ℚ))|) ∧
    (E1.update [p1]).viralMap 3 0 = E1.viralMap 3 0 * E1.attenuation := by
  have h : ∀ p ∈ [p1], p.alive = true → (p.infected = true ∨ p.cleanlinessBias ≠ 0) →
      (E1.AOE : ℤ) < max |(3 : ℤ) - pyInt (p.location.1 * (E1.scale : ℚ))|
        |(0 : ℤ) - pyInt (p.location.2 * (E1.scale : ℚ))| := by
    intro p hp
    simp only [List.mem_singleton] at hp
    subst hp
    intro _ _
    norm_num [E1, environment.init, p1, pyInt]
  exact ⟨h, C1_update_block_footprint.2 E1 [p1] 3 0 h⟩

/-- C8: (i) construction puts `age` in [0,104] and both position components
in [0,1]; (ii) `agent.update` never changes `age` and, since the movement
rejection loop only commits candidates strictly inside (0,1)^2, keeps the
position in [0,1]^2 (a dead agent keeps its in-range position); (iii) the
committed candidate of the rejection loop is indeed accepted; (iv) the grid
index `int(position * scale)` computed from any position in [0,1] lies in
`[0, scale]`, inside the `(scale+1) x (scale+1)` viral map, for both
`agent.update` and `environment.update`. -/
theorem C8_age_position_index_bounds :
    (∀ (ab cb sb tb : ℚ) (g : ℕ) (ib : Option (ℚ × ℚ)) (r : agentRandomness),
      (0 ≤ (agent.init ab cb sb tb g ib r).age ∧
        (agent.init ab cb sb tb g ib r).age ≤ 104) ∧
      (0 ≤ (agent.init ab cb sb tb g ib r).location.1 ∧
        (agent.init ab cb sb tb g ib r).location.1 ≤ 1) ∧
      (0 ≤ (agent.init ab cb sb tb g ib r).location.2 ∧
        (agent.init ab cb sb tb g ib r).location.2 ≤ 1)) ∧
    (∀ (a : agent) (l : environment) (n : ℚ × ℚ) (iD dD : ℝ),
      (a.update l n iD dD).age = a.age ∧
      (0 ≤ a.location.1 → a.location.1 ≤ 1 → 0 ≤ a.location.2 → a.location.2 ≤ 1 →
        acceptedLocation n →
        0 ≤ (a.update l n iD dD).location.1 ∧ (a.update l n iD dD).location.1 ≤ 1 ∧
        0 ≤ (a.update l n iD dD).location.2 ∧ (a.update l n iD dD).location.2 ≤ 1)) ∧
    (∀ (f : ℕ → ℚ × ℚ) (h : ∃ m, acceptedLocation (f m)),
      acceptedLocation (chooseLocation f h)) ∧
    (∀ (q : ℚ) (s : ℕ), 0 ≤ q → q ≤ 1 →
      0 ≤ pyInt (q * (s : ℚ)) ∧ pyInt (q * (s : ℚ)) ≤ (s : ℤ)) := by
  refine ⟨?_, ?_, ?_, ?_⟩
  · intro ab cb sb tb g ib r
    refine ⟨?_, ?_⟩
    · show 0 ≤ age_distribution ab r ∧ age_distribution ab r ≤ 104
      unfold age_distribution
      split_ifs with hm
      · obtain ⟨hu0, hu1⟩ := r.hSub
        have hg : (r.ageGroup : ℚ) ≤ 20 := by
          have := r.ageGroup.is_le
          exact_mod_cast this
        have hg0 : (0 : ℚ) ≤ (r.ageGroup : ℚ) := by positivity
        constructor <;> linarith
      · exact Nat.find_spec r.hNormal
    · cases ib with
      | none =>
          obtain ⟨h1, h2, h3, h4⟩ := r.hUniformLoc
          exact ⟨⟨h1, h2⟩, h3, h4⟩
      | some b =>
          constructor <;> constructor
          · exact le_min (le_max_right _ _) zero_le_one
          · exact min_le_right _ _
          · exact le_min (le_max_right _ _) zero_le_one
          · exact min_le_right _ _
  · intro a l n iD dD
    refine ⟨?_, ?_⟩
    · simp only [agent.update]
      split_ifs <;> rfl
    · intro h1 h2 h3 h4 hn
      obtain ⟨hn1, hn2, hn3, hn4⟩ := hn
      simp only [agent.update]
      split_ifs <;>
        first
          | exact ⟨le_of_lt hn1, le_of_lt hn2, le_of_lt hn3, le_of_lt hn4⟩
          | exact ⟨h1, h2, h3, h4⟩
  · intro f h
    exact Nat.find_spec h
  · intro q s hq0 hq1
    have hqs0 : (0 : ℚ) ≤ q * (s : ℚ) := mul_nonneg hq0 (by positivity)
    have hpy : pyInt (q * (s : ℚ)) = ⌊q * (s : ℚ)⌋ := by
      unfold pyInt
      exact if_pos hqs0
    constructor
    · rw [hpy]
      exact Int.floor_nonneg.mpr hqs0
    · rw [hpy]
      have hle : q * (s : ℚ) ≤ (s : ℚ) := mul_le_of_le_one_left (by positivity) hq1
      calc ⌊q * (s : ℚ)⌋ ≤ ⌊((s : ℕ) : ℚ)⌋ := Int.floor_le_floor hle
      _ = (s : ℤ) := Int.floor_natCast s

/-- A concrete sample of constructor randomness. -/
def r0 : agentRandomness :=
  { ageGroup := 3, subBucket := 1 / 2, hSub := by norm_num,
    normalAges := fun _ => 50, hNormal := ⟨0, by norm_num⟩,
    uniformLoc := (1 / 2, 1 / 2), hUniformLoc := by norm_num,
    biasedLoc := (2, -1), pecDraw := false, elderlyDraw := false,
    asympDraw := 5, hAsymp := by norm_num }

theorem C8_witness :
    (0 ≤ (agent.init (-1) 0 0 1 2 none r0).age ∧
      (agent.init (-1) 0 0 1 2 none r0).age ≤ 104) ∧
    ((0 : ℚ) ≤ aSick.location.1 ∧ aSick.location.1 ≤ 1 ∧
      0 ≤ aSick.location.2 ∧ aSick.location.2 ≤ 1 ∧
      acceptedLocation ((1 : ℚ) / 2, (3 : ℚ) / 4)) ∧
    (0 ≤ (aSick.update E1 (1 / 2, 3 / 4) 0 0).location.1 ∧
      (aSick.update E1 (1 / 2, 3 / 4) 0 0).location.1 ≤ 1 ∧
      0 ≤ (aSick.update E1 (1 / 2, 3 / 4) 0 0).location.2 ∧
      (aSick.update E1 (1 / 2, 3 / 4) 0 0).location.2 ≤ 1) ∧
    ((0 : ℚ) ≤ 1 ∧ (1 : ℚ) ≤ 1 ∧
      0 ≤ pyInt ((1 : ℚ) * ((100 : ℕ) : ℚ)) ∧ pyInt ((1 : ℚ) * ((100 : ℕ) : ℚ)) ≤ (100 : ℤ)) :=
  ⟨(C8_age_position_index_bounds.1 (-1) 0 0 1 2 none r0).1,
    ⟨by norm_num [aSick], by norm_num [aSick], by norm_num [aSick], by norm_num [aSick],
      by constructor <;> norm_num⟩,
    (C8_age_position_index_bounds.2.1 aSick E1 (1 / 2, 3 / 4) 0 0).2
      (by norm_num [aSick]) (by norm_num [aSick]) (by norm_num [aSick])
      (by norm_num [aSick]) (by constructor <;> norm_num),
    by norm_num,
    by norm_num,
    (C8_age_position_index_bounds.2.2.2 1 100 (by norm_num) (by norm_num)).1,
    (C8_age_position_index_bounds.2.2.2 1 100 (by norm_num) (by norm_num)).2⟩
